import Mathlib

/-!
# Video DownloadHelper — verification of the detection/classification core

Shallow embedding of the page-embedded video detector (`content.js`) of the
Video-DownloadHelper extension.  JavaScript strings are modelled as Lean
`String` (code paths in scope are ASCII, so the UTF-16 `length` of the source
and Lean's codepoint `length` agree on every input considered here); `null` /
`undefined` string-valued slots are modelled as `Option String`, with JS
truthiness (`none` and `some ""` are falsy) made explicit at each use site.
The DOM is modelled by explicit structures carrying exactly the data the
detector reads.
-/

namespace VDH

/-- JS truthiness of a possibly-absent string (`undefined`/`null`/`''` are falsy). -/
def truthy (o : Option String) : Bool :=
  match o with
  | some s => s ≠ ""
  | none => false

/-- JS `a || b` on possibly-absent strings: the left operand when truthy, else the right. -/
def jsOrStr (a b : Option String) : Option String :=
  if truthy a then a else b

/-- Whitespace as matched by the JS `\s` class and by `String.prototype.trim`
(the ASCII whitespace characters plus NBSP and the BOM; the detector never
meets the remaining Unicode space characters). -/
def jsSpace (c : Char) : Bool :=
  c = ' ' || c = '\t' || c = '\n' || c = '\r' || c = '\x0b' || c = '\x0c' ||
  c = ' ' || c = '﻿'

/-- JS `String.prototype.toLowerCase` (the strings in scope are ASCII). -/
def lowerStr (s : String) : String :=
  String.mk (s.data.map Char.toLower)

/-- JS `String.prototype.startsWith`. -/
def startsWithStr (s pre : String) : Bool :=
  pre.data.isPrefixOf s.data

/-- JS `String.prototype.endsWith`. -/
def endsWithStr (s suf : String) : Bool :=
  suf.data.isSuffixOf s.data

/-- JS `String.prototype.substring(0, n)` / truncation to `n` characters. -/
def takeStr (s : String) (n : Nat) : String :=
  String.mk (s.data.take n)

/-- JS `String.prototype.split('/')`. -/
def splitSlashAux (acc : List Char) : List Char → List String
  | [] => [String.mk acc.reverse]
  | c :: cs =>
    if c = '/' then String.mk acc.reverse :: splitSlashAux [] cs
    else splitSlashAux (c :: acc) cs

/-- JS `String.prototype.split('/')`. -/
def splitSlash (s : String) : List String :=
  splitSlashAux [] s.data

/-- `String.prototype.includes` (case-sensitive substring test) on char lists. -/
def includesFrom : List Char → List Char → Bool
  | [], needle => needle.isEmpty
  | c :: t, needle => needle.isPrefixOf (c :: t) || includesFrom t needle

/-- `String.prototype.includes` (case-sensitive). -/
def jsIncludes (s pat : String) : Bool :=
  includesFrom s.data pat.data

/-- Case-insensitive "pattern starts here" test (pattern given in lowercase),
modelling a JS regex literal with the `i` flag matching at the current position. -/
def ciLeads : List Char → List Char → Bool
  | [], _ => true
  | _ :: _, [] => false
  | p :: ps, c :: cs => p = c.toLower && ciLeads ps cs

/-- Case-insensitive substring occurrence (pattern given in lowercase). -/
def ciHas : List Char → List Char → Bool
  | needle, [] => needle.isEmpty
  | needle, c :: cs => ciLeads needle (c :: cs) || ciHas needle cs

/-- The JS regex `/segment-\d+/i` applied with `test`: a case-insensitive
occurrence of `segment-` immediately followed by at least one ASCII digit. -/
def segDigitAt : List Char → Bool
  | [] => false
  | c :: cs =>
    (ciLeads "segment-".data (c :: cs) &&
      (match (c :: cs).drop 8 with
       | d :: _ => d.isDigit
       | [] => false)) || segDigitAt cs

/-- `isStreamingUrl` (content.js:66-93): HLS/DASH substring markers
(case-sensitive `includes`) or one of a fixed battery of case-insensitive
streaming-path regexes.  The input is `Option String` so that the JS guard
`!url || typeof url !== 'string'` (null, undefined, non-string) is explicit. -/
def isStreamingUrl (u : Option String) : Bool :=
  match u with
  | none => false
  | some url =>
    if url = "" then false
    else if jsIncludes url ".m3u8" || jsIncludes url "m3u8" then true
    else if jsIncludes url ".mpd" || jsIncludes url "mpd" then true
    else
      let l := lowerStr url
      jsIncludes l "/hls/" || jsIncludes l "/dash/" || jsIncludes l "/stream/" ||
      jsIncludes l "/manifest/" || jsIncludes l "playlist.m3u8" ||
      jsIncludes l "master.m3u8" || jsIncludes l "index.m3u8" ||
      endsWithStr l ".ts" || segDigitAt url.data

/-- `getStreamingFormat` (content.js:110-121). -/
def getStreamingFormat (url : String) : String :=
  if jsIncludes url ".m3u8" || jsIncludes url "m3u8" then "HLS"
  else if jsIncludes url ".mpd" || jsIncludes url "mpd" then "DASH"
  else if jsIncludes url ".ts" then "TS"
  else "Stream"

/-- `getVideoFormat` (content.js:472-491): first-match-wins chain of
lowercased substring tests, `'Unknown'` only for a falsy (empty/absent) url,
`'Video'` when nothing matches. -/
def getVideoFormat (url : String) : String :=
  if url = "" then "Unknown"
  else
    let l := lowerStr url
    if jsIncludes l ".mp4" then "MP4"
    else if jsIncludes l ".webm" then "WebM"
    else if jsIncludes l ".ogg" then "OGG"
    else if jsIncludes l ".avi" then "AVI"
    else if jsIncludes l ".mov" then "MOV"
    else if jsIncludes l ".wmv" then "WMV"
    else if jsIncludes l ".flv" then "FLV"
    else if jsIncludes l ".mkv" then "MKV"
    else if jsIncludes l ".m3u8" then "HLS"
    else if jsIncludes l ".mpd" then "DASH"
    else if jsIncludes l ".ts" then "TS"
    else if startsWithStr l "blob:" then "Blob"
    else "Video"

/-- Result of `new URL(url)` restricted to the components the detector reads
(`protocol` without the trailing colon, `hostname`, `pathname`). -/
structure ParsedUrl where
  scheme : String
  host : String
  pathname : String
deriving DecidableEq, Repr

/-- Leading scheme of a URL per the WHATWG parser: an ASCII letter followed by
letters, digits, `+`, `-`, `.`, terminated by `:`; returned lowercased
together with the remainder. -/
def schemeSplit (l : List Char) : Option (String × List Char) :=
  match l with
  | c :: _ =>
    if c.isAlpha then
      let sch := l.takeWhile (fun ch => ch.isAlpha || ch.isDigit || ch = '+' || ch = '-' || ch = '.')
      match l.drop sch.length with
      | ':' :: rest => some (lowerStr (String.mk sch), rest)
      | _ => none
    else none
  | [] => none

/-- Model of the host builtin `new URL(url)` (no base argument) restricted to
what the detector reads.  Leading/trailing C0-control-or-space is trimmed; an
absolute URL needs a scheme; the special schemes `http`/`https` additionally
need a non-empty host after the slashes, and their `pathname` is the part up
to the query/fragment (at least `/`); any other scheme is accepted with an
opaque path.  Ports, userinfo, percent-encoding and host validation are not
modelled: the repository reads only `protocol` and `pathname`, on URLs where
these simplifications are invisible. -/
def parseUrl (url : String) : Option ParsedUrl :=
  let t := (url.data.dropWhile (fun c => c ≤ ' ')).reverse.dropWhile (fun c => c ≤ ' ') |>.reverse
  match schemeSplit t with
  | none => none
  | some (sch, rest) =>
    if sch = "http" || sch = "https" then
      let rest1 := rest.dropWhile (fun c => c = '/' || c = '\\')
      let host := rest1.takeWhile (fun c => c ≠ '/' && c ≠ '?' && c ≠ '#' && c ≠ '\\')
      if host.isEmpty then none
      else
        let after := rest1.drop host.length
        let path := after.takeWhile (fun c => c ≠ '?' && c ≠ '#')
        some ⟨sch, String.mk host, if path.isEmpty then "/" else String.mk path⟩
    else
      some ⟨sch, "", String.mk (rest.takeWhile (fun c => c ≠ '?' && c ≠ '#'))⟩

/-- `isValidVideoUrl` (content.js:435-470): must parse, must be http/https
(then the redundant blob:/data: rejections), then a container-extension or
MIME-like substring must occur in the lowercased URL. -/
def isValidVideoUrl (url : String) : Bool :=
  match parseUrl url with
  | none => false
  | some p =>
    if !(p.scheme = "http" || p.scheme = "https") then false
    else if startsWithStr url "blob:" then false
    else if startsWithStr url "data:" then false
    else
      let l := lowerStr url
      let hasVideoExtension :=
        [".mp4", ".webm", ".ogg", ".avi", ".mov", ".wmv", ".flv", ".mkv"].any
          (fun ext => jsIncludes l ext)
      let hasVideoMime :=
        ["video/", "mp4", "webm", "ogg"].any (fun pat => jsIncludes l pat)
      hasVideoExtension || hasVideoMime

/-- `detectPlatform` (content.js:388-407): substring match on the lowercased
hostname (the lowercased href computed there is never used). -/
def detectPlatform (hostname : String) : String :=
  let h := lowerStr hostname
  if jsIncludes h "tiktok.com" then "tiktok"
  else if jsIncludes h "facebook.com" || jsIncludes h "fb.com" then "facebook"
  else if jsIncludes h "youtube.com" || jsIncludes h "youtu.be" then "youtube"
  else if jsIncludes h "instagram.com" then "instagram"
  else if jsIncludes h "twitter.com" || jsIncludes h "x.com" then "twitter"
  else if jsIncludes h "twitch.tv" then "twitch"
  else "generic"

/-- A `VideoCandidate` record as pushed onto `this.videos` by the detection
strategies.  Every field any strategy ever sets is present; a field a given
strategy does not set is `none` (JS `undefined`).  The DOM back-references
(`element`, `sourceElement`) carry no data the pipeline reads and are omitted.
`duration`/`currentTime` are JS numbers used only as payload; they are
modelled as `Nat` (the `|| 0` in the source replaces `NaN`/`undefined` and is
absorbed into the model). -/
structure Candidate where
  src : Option String := none
  url : Option String := none
  type : Option String := none
  platform : Option String := none
  format : Option String := none
  size : Option String := none
  title : Option String := none
  isStreaming : Option Bool := none
  downloadable : Option Bool := none
  reason : Option String := none
  alternative : Option String := none
  mimeType : Option String := none
  duration : Option Nat := none
  currentTime : Option Nat := none
deriving DecidableEq, Repr

/-- The `seen`-set loop of the effective `removeDuplicates` (content.js:961-970):
a JS `Set` populated with `video.src` values (`undefined` for candidates
without a `src` field, modelled as `none`). -/
def removeDuplicatesAux (seen : List (Option String)) : List Candidate → List Candidate
  | [] => []
  | v :: rest =>
    if seen.contains v.src then removeDuplicatesAux seen rest
    else v :: removeDuplicatesAux (v.src :: seen) rest

/-- The `removeDuplicates` the orchestrator actually runs: the class body
defines the method twice and the later definition (content.js:961-970) wins,
keying only on `video.src`. -/
def removeDuplicates (videos : List Candidate) : List Candidate :=
  removeDuplicatesAux [] videos

/-- The `seen`-set loop of the earlier, shadowed `removeDuplicates`
(content.js:493-503), which keys on `video.url || video.src`. -/
def removeDuplicatesShadowedAux (seen : List (Option String)) : List Candidate → List Candidate
  | [] => []
  | v :: rest =>
    if seen.contains (jsOrStr v.url v.src) then removeDuplicatesShadowedAux seen rest
    else v :: removeDuplicatesShadowedAux (jsOrStr v.url v.src :: seen) rest

/-- The earlier `removeDuplicates` definition (content.js:493-503), shadowed by
the later duplicate method definition and therefore never executed. -/
def removeDuplicatesShadowed (videos : List Candidate) : List Candidate :=
  removeDuplicatesShadowedAux [] videos

/-- `isValidVideo` (content.js:505-523): streaming candidates need a truthy
`url` longer than 10; others need a truthy `url || src` of length at least 20
(the length-10 test is subsumed). -/
def isValidVideo (video : Candidate) : Bool :=
  if video.isStreaming.getD false then
    truthy video.url && (video.url.getD "").length > 10
  else
    let videoUrl := jsOrStr video.url video.src
    if !truthy videoUrl || (videoUrl.getD "").length < 10 then false
    else if (videoUrl.getD "").length < 20 then false
    else true

/-- Whitespace-run collapse of `sanitizeTitle`'s `.replace(/\s+/g, ' ')`:
each maximal run of `\s` characters becomes a single space. -/
def collapseWs : List Char → List Char
  | [] => []
  | c :: t =>
    if jsSpace c && (match t with | c2 :: _ => jsSpace c2 | [] => false) then collapseWs t
    else (if jsSpace c then ' ' else c) :: collapseWs t

/-- JS `String.prototype.trim`. -/
def jsTrim (s : String) : String :=
  String.mk ((s.data.dropWhile jsSpace).reverse.dropWhile jsSpace).reverse

/-- `sanitizeTitle` (content.js:614-621): replace filename-illegal characters
with `_`, collapse whitespace, trim, truncate to 100 characters. -/
def sanitizeTitle (title : String) : String :=
  let step1 := title.data.map (fun c =>
    if c = '<' || c = '>' || c = ':' || c = '"' || c = '/' || c = '\\' ||
       c = '|' || c = '?' || c = '*' then '_' else c)
  takeStr (jsTrim (String.mk (collapseWs step1))) 100

/-- A `<source>` element as the detector reads it: the `src` attribute
(`none` when absent; the `src` property then reads `''`), the `type`
property (`''` when absent), and the title-bearing attributes consulted by
`extractVideoTitle`. -/
structure SourceElem where
  src : Option String := none
  typeAttr : String := ""
  title : String := ""
  dataTitle : Option String := none
deriving DecidableEq, Repr

/-- One ancestor step of a media element, carrying exactly what
`findNearbyTitle` reads from a `parentElement`: its `title` property, the
text of its first heading descendant (if any), and the text of its first
descendant matching `.title, .video-title, .name, .video-name` (if any). -/
structure Ancestor where
  title : String := ""
  heading : Option String := none
  titleClassText : Option String := none
deriving DecidableEq, Repr

/-- A `<video>` element as the detector reads it.  `ancestors` is the
`parentElement` chain, nearest first. -/
structure VideoElem where
  src : Option String := none
  sources : List SourceElem := []
  titleAttr : String := ""
  dataTitle : Option String := none
  ariaLabel : Option String := none
  duration : Nat := 0
  currentTime : Nat := 0
  ancestors : List Ancestor := []
deriving DecidableEq, Repr

/-- The JS `video.src` property: `''` when the attribute is absent. -/
def VideoElem.srcProp (v : VideoElem) : String :=
  v.src.getD ""

/-- The JS `source.src` property: `''` when the attribute is absent. -/
def SourceElem.srcProp (s : SourceElem) : String :=
  s.src.getD ""

/-- A node returned by a document-level `querySelector` in the platform title
extractors: its `textContent` and (for `<meta>` nodes) its `content`. -/
structure TitleNode where
  textContent : String := ""
  content : String := ""
deriving DecidableEq, Repr

/-- An element returned by `querySelectorAll` in the platform harvests, which
can be a `<video>` or a `<source>` (the selector `video source[src]` matches
source elements). -/
inductive MediaElem where
  | video (v : VideoElem)
  | sourceEl (s : SourceElem)
deriving DecidableEq, Repr

/-- The `.src` property of a harvested element. -/
def MediaElem.srcProp : MediaElem → String
  | .video v => v.srcProp
  | .sourceEl s => s.srcProp

/-- `element.querySelector('source')`: the first `<source>` child of a video
element; `null` on a source element. -/
def MediaElem.firstSource : MediaElem → Option SourceElem
  | .video v => v.sources.head?
  | .sourceEl _ => none

/-- `element.src || (element.querySelector('source') && element.querySelector('source').src)`
as used by every platform harvest; all falsy outcomes (`''`, `null`,
`undefined`) collapse to `""`, which is all the caller's truthiness test
observes. -/
def MediaElem.resolvedSrc (e : MediaElem) : String :=
  if e.srcProp ≠ "" then e.srcProp
  else
    match e.firstSource with
    | some s => s.srcProp
    | none => ""

/-- The page document as the detector reads it: hostname, `document.title`,
the text of every `<script>` (document order), every `<video>` element
(document order), an oracle for the platform-specific non-structural CSS
selectors (`queryExtra` for `querySelectorAll`, `queryNode` for the
title-extractor `querySelector`), and the value `Date.now()` would return. -/
structure Doc where
  hostname : String := ""
  docTitle : String := ""
  scripts : List String := []
  videos : List VideoElem := []
  queryExtra : String → List MediaElem := fun _ => []
  queryNode : String → Option TitleNode := fun _ => none
  now : Nat := 0

/-- `document.querySelectorAll(sel)` for the selectors the detector uses: the
three structural ones are answered from the element lists, the
platform-specific ones by the document's oracle. -/
def selectAll (doc : Doc) (sel : String) : List MediaElem :=
  if sel = "video[src]" then (doc.videos.filter (·.src.isSome)).map .video
  else if sel = "video source[src]" then
    (doc.videos.flatMap (fun v => v.sources.filter (·.src.isSome))).map .sourceEl
  else if sel = "video" then doc.videos.map .video
  else doc.queryExtra sel

/-- `findNearbyTitle` (content.js:565-593): walk up to 3 ancestor levels
looking for a `title` attribute, a heading, or a title-classed element. -/
def findNearbyTitleAux : List Ancestor → Nat → String
  | [], _ => ""
  | a :: rest, depth =>
    if depth ≥ 3 then ""
    else if a.title ≠ "" then a.title
    else
      match a.heading with
      | some h =>
        if jsTrim h ≠ "" then jsTrim h
        else
          match a.titleClassText with
          | some t => if jsTrim t ≠ "" then jsTrim t else findNearbyTitleAux rest (depth + 1)
          | none => findNearbyTitleAux rest (depth + 1)
      | none =>
        match a.titleClassText with
        | some t => if jsTrim t ≠ "" then jsTrim t else findNearbyTitleAux rest (depth + 1)
        | none => findNearbyTitleAux rest (depth + 1)

/-- `findNearbyTitle` (content.js:565-593). -/
def findNearbyTitle (v : VideoElem) : String :=
  findNearbyTitleAux v.ancestors 0

/-- The JS `filename.replace(/\.[^/.]+$/, '')`: strip a final extension (a
dot followed by one or more characters none of which is `/` or `.`). -/
def stripExt (filename : String) : String :=
  let r := filename.data.reverse
  let tail := r.takeWhile (fun c => c ≠ '/' && c ≠ '.')
  match r.drop tail.length with
  | '.' :: rest => if tail.isEmpty then filename else String.mk rest.reverse
  | _ => filename

/-- `extractTitleFromUrl` (content.js:595-612). -/
def extractTitleFromUrl (url : String) : String :=
  if url = "" then ""
  else
    match parseUrl url with
    | none => ""
    | some p =>
      let filename := (splitSlash p.pathname).getLast?.getD ""
      if filename ≠ "" && jsIncludes filename "." then stripExt filename
      else ""

/-- `extractVideoTitle` (content.js:525-563): the heuristic title cascade for
generically harvested elements. -/
def extractVideoTitle (doc : Doc) (v : VideoElem) (s? : Option SourceElem) : String :=
  let title :=
    if v.titleAttr ≠ "" then v.titleAttr
    else if truthy v.dataTitle then v.dataTitle.getD ""
    else if truthy v.ariaLabel then v.ariaLabel.getD ""
    else ""
  let title :=
    if title = "" then
      match s? with
      | some s =>
        if s.title ≠ "" then s.title
        else if truthy s.dataTitle then s.dataTitle.getD ""
        else ""
      | none => ""
    else title
  let title := if title = "" then findNearbyTitle v else title
  let title :=
    if title = "" then
      extractTitleFromUrl
        (if v.srcProp ≠ "" then v.srcProp
         else match s? with
              | some s => s.srcProp
              | none => "")
    else title
  let title := if title = "" then "Video " ++ toString doc.now else title
  sanitizeTitle title

/-- A character matched by the JS class `[^\s"']`. -/
def bodyChar (c : Char) : Bool :=
  !jsSpace c && c ≠ '"' && c ≠ '\''

/-- Match of `https?:\/\/` (case-insensitively) at the head of the text,
returning the number of characters consumed.  `https?` is deterministic: the
optional `s` is taken exactly when present, after which `://` must follow. -/
def schemeLen (t : List Char) : Option Nat :=
  if ciLeads "http".data t then
    let r := t.drop 4
    match r.head? with
    | some c =>
      if c.toLower = 's' then
        if ciLeads "://".data (r.drop 1) then some 8 else none
      else if ciLeads "://".data r then some 7 else none
    | none => none
  else none

/-- Attempted match, at the current position, of a pattern of the shape
`https?:\/\/[^\s"']+EXT[^\s"']*` with the `i` flag (`EXT` given lowercase,
itself made of `[^\s"']` characters).  With a greedy middle and tail the
match, when it exists, always extends to the end of the maximal `[^\s"']` run
after the scheme, and it exists exactly when `EXT` occurs in that run at
offset at least 1.  Returns the length of `match[0]`. -/
def tryPatA (ext : List Char) (t : List Char) : Option Nat :=
  match schemeLen t with
  | none => none
  | some sl =>
    let run := (t.drop sl).takeWhile bodyChar
    if decide (1 ≤ run.length) && ciHas ext (run.drop 1) then some (sl + run.length)
    else none

/-- The `while ((match = pattern.exec(text)) !== null)` loop for a
`tryPatA`-shaped global regex: leftmost match, then resume at the match end
(every match is non-empty, so `lastIndex` always advances).  `fuel` bounds the
scan by the text length. -/
def scanPatA (ext : List Char) : Nat → List Char → List String
  | 0, _ => []
  | _, [] => []
  | fuel + 1, c :: cs =>
    match tryPatA ext (c :: cs) with
    | some len => String.mk ((c :: cs).take len) :: scanPatA ext fuel ((c :: cs).drop len)
    | none => scanPatA ext fuel cs

/-- Attempted match, at the current position, of
`q(https?:\/\/[^q]*(?:m3u8|mpd)[^q]*)q` with the `i` flag, for a quote
character `q`.  The `[^q]*` pieces cannot cross a quote, so the closing quote
is the first `q` after the scheme, and the match exists exactly when `m3u8`
or `mpd` occurs (case-insensitively) between scheme end and that quote.
Returns the length of `match[0]` and the captured group. -/
def tryPatQ (q : Char) (t : List Char) : Option (Nat × String) :=
  match t with
  | [] => none
  | c :: cs =>
    if c = q then
      match schemeLen cs with
      | none => none
      | some sl =>
        let inner := (cs.drop sl).takeWhile (fun ch => ch ≠ q)
        match (cs.drop sl).drop inner.length with
        | _ :: _ =>
          if ciHas "m3u8".data inner || ciHas "mpd".data inner then
            some (1 + sl + inner.length + 1, String.mk (cs.take (sl + inner.length)))
          else none
        | [] => none
    else none

/-- The global-exec loop for a `tryPatQ`-shaped regex; the pushed value is
`match[1]` (the captured group). -/
def scanPatQ (q : Char) : Nat → List Char → List String
  | 0, _ => []
  | _, [] => []
  | fuel + 1, c :: cs =>
    match tryPatQ q (c :: cs) with
    | some (len, grp) => grp :: scanPatQ q fuel ((c :: cs).drop len)
    | none => scanPatQ q fuel cs

/-- First-seen string deduplication, as performed by `[...new Set(urls)]`. -/
def dedupStringsAux (seen : List String) : List String → List String
  | [] => []
  | s :: rest =>
    if seen.contains s then dedupStringsAux seen rest
    else s :: dedupStringsAux (s :: seen) rest

/-- `[...new Set(urls)]`. -/
def dedupStrings (urls : List String) : List String :=
  dedupStringsAux [] urls

/-- The JS `url.replace(/['"]/g, '')`. -/
def stripQuotes (url : String) : String :=
  String.mk (url.data.filter (fun c => c ≠ '\'' && c ≠ '"'))

/-- `extractStreamingUrlsFromText` (content.js:208-232): run the six-pattern
battery in order, keep each match that passes `isStreamingUrl` (quotes
stripped), then deduplicate first-seen. -/
def extractStreamingUrlsFromText (text : String) : List String :=
  let t := text.data
  let fuel := t.length
  let raw :=
    scanPatA ".m3u8".data fuel t ++
    scanPatA ".mpd".data fuel t ++
    scanPatA "/hls/".data fuel t ++
    scanPatA "/dash/".data fuel t ++
    scanPatQ '"' fuel t ++
    scanPatQ '\'' fuel t
  dedupStrings (raw.filterMap (fun url =>
    if url ≠ "" && isStreamingUrl (some url) then some (stripQuotes url) else none))

/-- The JS regex test `part.match(/\.(m3u8|mpd|ts)$/i)` used by
`extractTitleFromStreamingUrl`. -/
def streamExtSuffix (part : String) : Bool :=
  let l := lowerStr part
  endsWithStr l ".m3u8" || endsWithStr l ".mpd" || endsWithStr l ".ts"

/-- The backwards scan over path parts of `extractTitleFromStreamingUrl`
(the `for (let i = pathParts.length - 1; ...)` loop, here over the reversed
part list). -/
def streamTitleScan (platform : String) : List String → String
  | [] => platform ++ " Stream"
  | part :: rest =>
    if part ≠ "" && !streamExtSuffix part && part.length > 3 then
      sanitizeTitle (String.mk (part.data.map (fun c => if c = '-' || c = '_' then ' ' else c)))
    else streamTitleScan platform rest

/-- `extractTitleFromStreamingUrl` (content.js:234-253). -/
def extractTitleFromStreamingUrl (url platform : String) : String :=
  match parseUrl url with
  | none => platform ++ " Stream"
  | some p =>
    let pathParts := (splitSlash p.pathname).filter (· ≠ "")
    streamTitleScan platform pathParts.reverse

/-- The streaming candidate record pushed (with identical field layout) by
`findStreamingVideos` for an observed URL (content.js:160-171) and by
`scanPageForStreamingUrls` for a script-scanned URL (content.js:183-194),
including the `extractTitleFromStreamingUrl(...) || \x7bplatform format
Stream\x7d` title fallback. -/
def streamCandidate (platform url : String) : Candidate :=
  let format := getStreamingFormat url
  let t := extractTitleFromStreamingUrl url platform
  { url := some url
    type := some "streaming"
    platform := some platform
    format := some format
    size := some "Unknown"
    title := some (if t ≠ "" then t else platform ++ " " ++ format ++ " Stream")
    isStreaming := some true }

/-- A JSON value as produced by `JSON.parse` (numbers kept as their source
text; the detector never reads a numeric field). -/
inductive Json where
  | null
  | bool (b : Bool)
  | num (raw : String)
  | str (s : String)
  | arr (elems : List Json)
  | obj (fields : List (String × Json))

/-- JSON insignificant whitespace. -/
def jsonWs (c : Char) : Bool :=
  c = ' ' || c = '\t' || c = '\n' || c = '\r'

/-- Value of one hexadecimal digit of a `\u` escape. -/
def hexVal (c : Char) : Option Nat :=
  let n := c.toNat
  if 48 ≤ n && n < 58 then some (n - 48)
  else if 97 ≤ n && n < 103 then some (n - 87)
  else if 65 ≤ n && n < 71 then some (n - 55)
  else none

/-- JSON string body after the opening quote (fuelled; surrogate pairing of
`\u` escapes is not modelled — the detector never consumes such titles). -/
def parseJstr : Nat → List Char → List Char → Option (String × List Char)
  | 0, _, _ => none
  | _ + 1, [], _ => none
  | fuel + 1, c :: rest, acc =>
    if c = '"' then some (String.mk acc.reverse, rest)
    else if c = '\\' then
      match rest with
      | e :: rest2 =>
        if e = '"' || e = '\\' || e = '/' then parseJstr fuel rest2 (e :: acc)
        else if e = 'b' then parseJstr fuel rest2 ('\x08' :: acc)
        else if e = 'f' then parseJstr fuel rest2 ('\x0c' :: acc)
        else if e = 'n' then parseJstr fuel rest2 ('\n' :: acc)
        else if e = 'r' then parseJstr fuel rest2 ('\r' :: acc)
        else if e = 't' then parseJstr fuel rest2 ('\t' :: acc)
        else if e = 'u' then
          match rest2 with
          | h1 :: h2 :: h3 :: h4 :: rest3 =>
            match hexVal h1, hexVal h2, hexVal h3, hexVal h4 with
            | some a, some b, some c3, some d =>
              parseJstr fuel rest3 (Char.ofNat (((a * 16 + b) * 16 + c3) * 16 + d) :: acc)
            | _, _, _, _ => none
          | _ => none
        else none
      | [] => none
    else if c.toNat < 0x20 then none
    else parseJstr fuel rest (c :: acc)

/-- JSON number token (grammar `-?(0|[1-9][0-9]*)(\.[0-9]+)?([eE][+-]?[0-9]+)?`),
returned as its source text. -/
def parseJnum (l : List Char) : Option (String × List Char) :=
  let (sign, l1) :=
    match l with
    | '-' :: rest => (['-'], rest)
    | _ => ([], l)
  match l1 with
  | c :: _ =>
    if !c.isDigit then none
    else if c = '0' && (match l1 with | _ :: d :: _ => d.isDigit | _ => false) then none
    else
      let intPart := l1.takeWhile Char.isDigit
      let l2 := l1.drop intPart.length
      let (fracPart, l3) :=
        match l2 with
        | '.' :: rest =>
          let ds := rest.takeWhile Char.isDigit
          if ds.isEmpty then ([], l2) else ('.' :: ds, rest.drop ds.length)
        | _ => ([], l2)
      if fracPart.isEmpty && (match l2 with | '.' :: _ => true | _ => false) then none
      else
        let (expPart, l4) :=
          match l3 with
          | e :: rest =>
            if e = 'e' || e = 'E' then
              let (es, rest2) :=
                match rest with
                | s :: r2 => if s = '+' || s = '-' then ([s], r2) else ([], rest)
                | [] => ([], rest)
              let ds := rest2.takeWhile Char.isDigit
              if ds.isEmpty then ([], l3) else (e :: (es ++ ds), rest2.drop ds.length)
            else ([], l3)
          | [] => ([], l3)
        some (String.mk (sign ++ intPart ++ fracPart ++ expPart), l4)
  | [] => none

mutual

/-- Recursive-descent JSON value parser (fuelled), modelling `JSON.parse`. -/
def parseJval : Nat → List Char → Option (Json × List Char)
  | 0, _ => none
  | fuel + 1, l =>
    let l1 := l.dropWhile jsonWs
    match l1 with
    | 'n' :: rest => if "ull".data.isPrefixOf rest then some (.null, rest.drop 3) else none
    | 't' :: rest => if "rue".data.isPrefixOf rest then some (.bool true, rest.drop 3) else none
    | 'f' :: rest => if "alse".data.isPrefixOf rest then some (.bool false, rest.drop 4) else none
    | '"' :: rest =>
      match parseJstr (rest.length + 1) rest [] with
      | some (s, rest2) => some (.str s, rest2)
      | none => none
    | '[' :: rest =>
      match rest.dropWhile jsonWs with
      | ']' :: rest2 => some (.arr [], rest2)
      | _ => match parseJarr fuel rest with
             | some (es, rest2) => some (.arr es, rest2)
             | none => none
    | '{' :: rest =>
      match rest.dropWhile jsonWs with
      | '}' :: rest2 => some (.obj [], rest2)
      | _ => match parseJobj fuel rest with
             | some (fs, rest2) => some (.obj fs, rest2)
             | none => none
    | _ =>
      match parseJnum l1 with
      | some (raw, rest) => some (.num raw, rest)
      | none => none

/-- Non-empty JSON array item list (after the `[`). -/
def parseJarr : Nat → List Char → Option (List Json × List Char)
  | 0, _ => none
  | fuel + 1, l =>
    match parseJval fuel l with
    | some (v, rest) =>
      match rest.dropWhile jsonWs with
      | ',' :: rest2 =>
        match parseJarr fuel rest2 with
        | some (es, rest3) => some (v :: es, rest3)
        | none => none
      | ']' :: rest2 => some ([v], rest2)
      | _ => none
    | none => none

/-- Non-empty JSON object member list (after the `{`). -/
def parseJobj : Nat → List Char → Option (List (String × Json) × List Char)
  | 0, _ => none
  | fuel + 1, l =>
    match l.dropWhile jsonWs with
    | '"' :: rest =>
      match parseJstr (rest.length + 1) rest [] with
      | some (k, rest2) =>
        match rest2.dropWhile jsonWs with
        | ':' :: rest3 =>
          match parseJval fuel rest3 with
          | some (v, rest4) =>
            match rest4.dropWhile jsonWs with
            | ',' :: rest5 =>
              match parseJobj fuel rest5 with
              | some (fs, rest6) => some ((k, v) :: fs, rest6)
              | none => none
            | '}' :: rest5 => some ([(k, v)], rest5)
            | _ => none
          | none => none
        | _ => none
      | none => none
    | _ => none

end

/-- `JSON.parse` on a whole string: one value, nothing but whitespace after. -/
def jsonParse (s : String) : Option Json :=
  match parseJval (2 * s.data.length + 2) s.data with
  | some (v, rest) => if (rest.dropWhile jsonWs).isEmpty then some v else none
  | none => none

/-- JS property access `obj.key` on a parsed JSON value: defined only on
objects (anything else yields `undefined`, modelled `none`); with duplicate
keys `JSON.parse` keeps the last. -/
def jsonGet (j : Json) (key : String) : Option Json :=
  match j with
  | .obj fields =>
    (fields.filter (fun kv => kv.1 = key)).getLast?.map (fun kv => kv.2)
  | _ => none

/-- Whether the raw text of a JSON number denotes zero (mantissa has no
non-zero digit), i.e. the value is JS-falsy. -/
def numIsZeroRaw (raw : String) : Bool :=
  (raw.data.takeWhile (fun c => c ≠ 'e' && c ≠ 'E')).all
    (fun c => !(c.isDigit && c ≠ '0'))

/-- JS truthiness of a value obtained from `JSON.parse`. -/
def jsTruthyJson : Json → Bool
  | .null => false
  | .bool b => b
  | .num raw => !numIsZeroRaw raw
  | .str s => s ≠ ""
  | .arr _ => true
  | .obj _ => true

/-- A JS line terminator (which the regex `.` never matches). -/
def lineTerm (c : Char) : Bool :=
  c = '\n' || c = '\r' || c = ' ' || c = ' '

/-- The lazy `.+?` body of `/ytInitialPlayerResponse\s*=\s*({.+?});/`: after
the `{`, consume non-line-terminator characters one at a time (at least one),
stopping at the first position followed by `};`. -/
def lazyBody (acc : List Char) : List Char → Option (List Char)
  | [] => none
  | c :: cs =>
    if lineTerm c then none
    else
      match cs with
      | '}' :: ';' :: _ => some (acc ++ [c])
      | _ => lazyBody (acc ++ [c]) cs

/-- Attempted match of `/ytInitialPlayerResponse\s*=\s*({.+?});/` at the
current position (case-sensitive; `\s*` and `=` are deterministic), returning
the captured group `{...}`. -/
def tryYtAt (t : List Char) : Option String :=
  if "ytInitialPlayerResponse".data.isPrefixOf t then
    match (t.drop 23).dropWhile jsSpace with
    | '=' :: r2 =>
      match r2.dropWhile jsSpace with
      | '{' :: r4 =>
        match lazyBody [] r4 with
        | some body => some (String.mk ('{' :: body ++ ['}']))
        | none => none
      | _ => none
    | _ => none
  else none

/-- `text.match(/ytInitialPlayerResponse\s*=\s*({.+?});/)` (no `g` flag):
group 1 of the leftmost match, if any. -/
def ytMatchAux : Nat → List Char → Option String
  | 0, _ => none
  | _, [] => none
  | fuel + 1, c :: cs =>
    match tryYtAt (c :: cs) with
    | some g => some g
    | none => ytMatchAux fuel cs

/-- Leftmost `ytInitialPlayerResponse` assignment group in a script text. -/
def ytMatchFirst (text : String) : Option String :=
  ytMatchAux text.data.length text.data

/-- The JS `s.replace(pat, '')` with a string pattern: remove the first
occurrence only. -/
def dropFirstOccur (pat : List Char) : List Char → List Char
  | [] => []
  | c :: cs =>
    if pat.isPrefixOf (c :: cs) then (c :: cs).drop pat.length
    else c :: dropFirstOccur pat cs

/-- The candidate pushed by `extractYouTubeStreamingData` (content.js:275-300)
for one manifest URL, with the `document.title.replace(' - YouTube', '') ||
'YouTube <fmt> Stream'` title. -/
def ytStreamCandidate (doc : Doc) (format u : String) : Candidate :=
  let t := String.mk (dropFirstOccur " - YouTube".data doc.docTitle.data)
  { url := some u
    type := some "streaming"
    platform := some "youtube"
    format := some format
    size := some "Unknown"
    title := some (if t ≠ "" then t else "YouTube " ++ format ++ " Stream")
    isStreaming := some true }

/-- `extractYouTubeStreamingData` (content.js:275-300): one candidate per
truthy manifest-URL field (these fields are strings whenever present in
YouTube player data; non-string truthy values do not occur and are not
modelled). -/
def extractYouTubeStreamingData (doc : Doc) (streamingData : Json) : List Candidate :=
  (match jsonGet streamingData "hlsManifestUrl" with
   | some (.str u) => if u ≠ "" then [ytStreamCandidate doc "HLS" u] else []
   | _ => []) ++
  (match jsonGet streamingData "dashManifestUrl" with
   | some (.str u) => if u ≠ "" then [ytStreamCandidate doc "DASH" u] else []
   | _ => [])

/-- `findYouTubeStreamingUrls` (content.js:255-273): for each script whose
text mentions `ytInitialPlayerResponse`, match the assignment regex, parse the
JSON, and extract manifest URLs when `streamingData` is truthy; a missing
match, a parse failure (the `catch`), or a falsy `streamingData` skips the
script. -/
def findYouTubeStreamingUrls (doc : Doc) : List Candidate :=
  doc.scripts.flatMap (fun text =>
    if text ≠ "" && jsIncludes text "ytInitialPlayerResponse" then
      match ytMatchFirst text with
      | some g =>
        match jsonParse g with
        | some playerData =>
          match jsonGet playerData "streamingData" with
          | some sd => if jsTruthyJson sd then extractYouTubeStreamingData doc sd else []
          | none => []
        | none => []
      | none => []
    else [])

/-- The `if (titleElement && titleElement.textContent.trim()) return
sanitizeTitle(...)` selector cascade shared by `extractTikTokTitle`
(content.js:822-839) and `extractFacebookTitle` (content.js:841-858). -/
def titleCascadeText (doc : Doc) (fallback : String) : List String → String
  | [] => fallback
  | sel :: rest =>
    match doc.queryNode sel with
    | some n =>
      if jsTrim n.textContent ≠ "" then sanitizeTitle (jsTrim n.textContent)
      else titleCascadeText doc fallback rest
    | none => titleCascadeText doc fallback rest

/-- The `title = titleElement.textContent || titleElement.content; if (title
&& title.trim()) ...` selector cascade shared by the YouTube / Instagram /
Twitter / Twitch title extractors (content.js:860-940). -/
def titleCascadeMeta (doc : Doc) (fallback : String) : List String → String
  | [] => fallback
  | sel :: rest =>
    match doc.queryNode sel with
    | some n =>
      let t := if n.textContent ≠ "" then n.textContent else n.content
      if t ≠ "" && jsTrim t ≠ "" then sanitizeTitle (jsTrim t)
      else titleCascadeMeta doc fallback rest
    | none => titleCascadeMeta doc fallback rest

/-- `extractTikTokTitle` (content.js:822-839); its element parameter is never
read (all probes are document-level). -/
def extractTikTokTitle (doc : Doc) : String :=
  titleCascadeText doc "TikTok Video"
    ["[data-e2e=\"browse-video-desc\"]", ".video-meta-caption", ".tt-video-meta-caption", "h1"]

/-- `extractFacebookTitle` (content.js:841-858); element parameter unread. -/
def extractFacebookTitle (doc : Doc) : String :=
  titleCascadeText doc "Facebook Video"
    ["[data-ad-preview=\"message\"]", ".userContent", "[data-testid=\"post_message\"]", "h3"]

/-- `extractYouTubeTitle` (content.js:860-880); element parameter unread. -/
def extractYouTubeTitle (doc : Doc) : String :=
  titleCascadeMeta doc "YouTube Video"
    ["h1.title", ".watch-title", "#container h1", "meta[property=\"og:title\"]"]

/-- `extractInstagramTitle` (content.js:882-900); element parameter unread. -/
def extractInstagramTitle (doc : Doc) : String :=
  titleCascadeMeta doc "Instagram Video"
    ["meta[property=\"og:title\"]", "h1", ".caption"]

/-- `extractTwitterTitle` (content.js:902-920); element parameter unread. -/
def extractTwitterTitle (doc : Doc) : String :=
  titleCascadeMeta doc "Twitter Video"
    ["[data-testid=\"tweetText\"]", "meta[property=\"og:title\"]", ".tweet-text"]

/-- `extractTwitchTitle` (content.js:922-940); element parameter unread. -/
def extractTwitchTitle (doc : Doc) : String :=
  titleCascadeMeta doc "Twitch Video"
    ["h1[data-a-target=\"stream-title\"]", ".channel-info-content h1", "meta[property=\"og:title\"]"]

/-- `extractPlatformTitle` (content.js:942-959). -/
def extractPlatformTitle (doc : Doc) (v : VideoElem) (platform : String) : String :=
  if platform = "tiktok" then extractTikTokTitle doc
  else if platform = "facebook" then extractFacebookTitle doc
  else if platform = "youtube" then extractYouTubeTitle doc
  else if platform = "instagram" then extractInstagramTitle doc
  else if platform = "twitter" then extractTwitterTitle doc
  else if platform = "twitch" then extractTwitchTitle doc
  else extractVideoTitle doc v none

/-- `findDirectVideoElements` (content.js:346-362): one candidate per
`video[src]` element whose truthy `src` passes `isValidVideoUrl`. -/
def findDirectVideoElements (doc : Doc) : List Candidate :=
  (doc.videos.filter (·.src.isSome)).filterMap (fun v =>
    if v.srcProp ≠ "" && isValidVideoUrl v.srcProp then
      some { src := some v.srcProp
             type := some "direct"
             title := some (extractVideoTitle doc v none)
             duration := some v.duration
             currentTime := some v.currentTime }
    else none)

/-- `findSourceElements` (content.js:364-386): one candidate per
`source[src]` nested in a video element, when its truthy `src` passes
`isValidVideoUrl`. -/
def findSourceElements (doc : Doc) : List Candidate :=
  doc.videos.flatMap (fun v =>
    (v.sources.filter (·.src.isSome)).filterMap (fun s =>
      if s.srcProp ≠ "" && isValidVideoUrl s.srcProp then
        some { src := some s.srcProp
               type := some "source"
               title := some (extractVideoTitle doc v (some s))
               duration := some v.duration
               currentTime := some v.currentTime
               mimeType := some s.typeAttr }
      else none))

/-- The selector loop shared verbatim by the six platform harvests
(content.js:623-800): for each selector, for each matched element, resolve
`element.src || element.querySelector('source')?.src` and emit a candidate
when it is truthy and `isValidVideoUrl` accepts it. -/
def platformHarvest (doc : Doc) (selectors : List String) (mkTitle : MediaElem → String)
    (ty : String) : List Candidate :=
  selectors.flatMap (fun sel =>
    (selectAll doc sel).filterMap (fun e =>
      let src := e.resolvedSrc
      if src ≠ "" && isValidVideoUrl src then
        some { url := some src
               title := some (mkTitle e)
               type := some ty
               format := some (getVideoFormat src)
               size := some "Unknown" }
      else none))

/-- The `reason` string of every blob candidate (content.js:815). -/
def blobReason : String :=
  "Blob URLs không thể tải xuống trực tiếp từ extension. Hãy thử right-click và \"Save video as...\" trên video."

/-- The `alternative` string of every blob candidate (content.js:816). -/
def blobAlternative : String :=
  "Sử dụng browser\x27s built-in save feature hoặc screen recording tools"

/-- `findBlobVideos` (content.js:802-820): for every video element with a
truthy `blob:` src, a non-downloadable candidate with fixed reason and
alternative. -/
def findBlobVideos (doc : Doc) (platform : String) : List Candidate :=
  doc.videos.filterMap (fun v =>
    if v.srcProp ≠ "" && startsWithStr v.srcProp "blob:" then
      some { url := some v.srcProp
             title := some (extractPlatformTitle doc v platform)
             type := some (platform ++ "_blob")
             format := some "blob"
             size := some "Unknown"
             downloadable := some false
             reason := some blobReason
             alternative := some blobAlternative }
    else none)

/-- `findTikTokVideos` (content.js:623-653). -/
def findTikTokVideos (doc : Doc) : List Candidate :=
  platformHarvest doc
    ["video[src]", "video source[src]", "[data-e2e=\"browse-video\"] video",
     ".video-player video", ".feed-video video", "div[data-e2e=\"feed-item\"] video"]
    (fun _ => extractTikTokTitle doc) "tiktok" ++
  findBlobVideos doc "tiktok"

/-- `findFacebookVideos` (content.js:655-685). -/
def findFacebookVideos (doc : Doc) : List Candidate :=
  platformHarvest doc
    ["video[src]", "video source[src]", "[data-pagelet=\"FeedUnit\"] video",
     "[data-pagelet=\"VideoPlayerRoot\"] video", ".story-bucket-current video",
     "[role=\"main\"] video"]
    (fun _ => extractFacebookTitle doc) "facebook" ++
  findBlobVideos doc "facebook"

/-- `findYouTubeVideos` (content.js:687-716). -/
def findYouTubeVideos (doc : Doc) : List Candidate :=
  platformHarvest doc
    ["video[src]", "video source[src]", ".html5-video-player video",
     "#movie_player video", ".video-stream"]
    (fun _ => extractYouTubeTitle doc) "youtube" ++
  findBlobVideos doc "youtube"

/-- `findInstagramVideos` (content.js:718-744). -/
def findInstagramVideos (doc : Doc) : List Candidate :=
  platformHarvest doc
    ["video[src]", "video source[src]", "article video", "[role=\"presentation\"] video"]
    (fun _ => extractInstagramTitle doc) "instagram" ++
  findBlobVideos doc "instagram"

/-- `findTwitterVideos` (content.js:746-772). -/
def findTwitterVideos (doc : Doc) : List Candidate :=
  platformHarvest doc
    ["video[src]", "video source[src]", "[data-testid=\"videoPlayer\"] video",
     ".media-container video"]
    (fun _ => extractTwitterTitle doc) "twitter" ++
  findBlobVideos doc "twitter"

/-- `findTwitchVideos` (content.js:774-800). -/
def findTwitchVideos (doc : Doc) : List Candidate :=
  platformHarvest doc
    ["video[src]", "video source[src]", ".video-player video",
     "[data-a-target=\"player-overlay-click-handler\"] video"]
    (fun _ => extractTwitchTitle doc) "twitch" ++
  findBlobVideos doc "twitch"

/-- `findPlatformSpecificVideos` (content.js:409-433). -/
def findPlatformSpecificVideos (doc : Doc) (platform : String) : List Candidate :=
  if platform = "tiktok" then findTikTokVideos doc
  else if platform = "facebook" then findFacebookVideos doc
  else if platform = "youtube" then findYouTubeVideos doc
  else if platform = "instagram" then findInstagramVideos doc
  else if platform = "twitter" then findTwitterVideos doc
  else if platform = "twitch" then findTwitchVideos doc
  else []

/-- `findFacebookStreamingUrls` (content.js:302-322): the generic script-text
regex scan, gated on the `hd_src`/`sd_src` markers, with the Facebook title
(`extractFacebookTitle() || 'Facebook Stream'`). -/
def findFacebookStreamingUrls (doc : Doc) : List Candidate :=
  doc.scripts.flatMap (fun text =>
    if text ≠ "" && (jsIncludes text "hd_src" || jsIncludes text "sd_src") then
      (extractStreamingUrlsFromText text).map (fun url =>
        let t := extractFacebookTitle doc
        { url := some url
          type := some "streaming"
          platform := some "facebook"
          format := some (getStreamingFormat url)
          size := some "Unknown"
          title := some (if t ≠ "" then t else "Facebook Stream")
          isStreaming := some true })
    else [])

/-- `findTikTokStreamingUrls` (content.js:324-344): as for Facebook, gated on
the `playAddr` marker. -/
def findTikTokStreamingUrls (doc : Doc) : List Candidate :=
  doc.scripts.flatMap (fun text =>
    if text ≠ "" && jsIncludes text "playAddr" then
      (extractStreamingUrlsFromText text).map (fun url =>
        let t := extractTikTokTitle doc
        { url := some url
          type := some "streaming"
          platform := some "tiktok"
          format := some (getStreamingFormat url)
          size := some "Unknown"
          title := some (if t ≠ "" then t else "TikTok Stream")
          isStreaming := some true })
    else [])

/-- `scanPageForStreamingUrls` (content.js:177-206): regex scan of every
truthy script text, then the platform-specific streaming extractors. -/
def scanPageForStreamingUrls (doc : Doc) (platform : String) : List Candidate :=
  (doc.scripts.flatMap (fun text =>
    if text ≠ "" then (extractStreamingUrlsFromText text).map (streamCandidate platform)
    else [])) ++
  (if platform = "youtube" then findYouTubeStreamingUrls doc
   else if platform = "facebook" then findFacebookStreamingUrls doc
   else if platform = "tiktok" then findTikTokStreamingUrls doc
   else [])

/-- `findStreamingVideos` (content.js:158-175): one candidate per URL in the
observed-streaming-URL set (insertion order), then the page scan. -/
def findStreamingVideos (doc : Doc) (streamingUrls : List String) (platform : String) :
    List Candidate :=
  streamingUrls.map (streamCandidate platform) ++ scanPageForStreamingUrls doc platform

/-- The body of `findVideos` (content.js:123-156): run the strategies in
order, concatenate their pushes, deduplicate (with the effective, later
`removeDuplicates`), filter with `isValidVideo`.  `streamingUrls` is the
process-wide observed-URL set in insertion order. -/
def findVideos (doc : Doc) (streamingUrls : List String) : List Candidate :=
  let platform := detectPlatform doc.hostname
  let vids :=
    findDirectVideoElements doc ++
    findSourceElements doc ++
    findPlatformSpecificVideos doc platform ++
    findStreamingVideos doc streamingUrls platform
  (removeDuplicates vids).filter isValidVideo

/-- The `try/catch` of `findVideos` (content.js:123-156) over the outcome of
its body: an exception anywhere inside the pipeline reaches the catch, which
returns `[]`.  The embedding of the body itself is total, so the exceptional
branch is modelled by quantifying over the body's outcome. -/
def findVideosCatch : Except String (List Candidate) → List Candidate
  | .ok vs => vs
  | .error _ => []

/-- A response sent through `sendResponse` by the message listener
(content.js:14-30). -/
structure FindVideosResponse where
  videos : List Candidate
  error : Option String := none
deriving DecidableEq, Repr

/-- The listener's resolution of one `findVideos` request (content.js:16-29):
the `.then` branch answers `{videos}`, the `.catch` branch answers
`{videos: [], error}`. -/
def handleFindVideos : Except String (List Candidate) → FindVideosResponse
  | .ok vs => { videos := vs }
  | .error e => { videos := [], error := some e }

/-- All `sendResponse` calls the listener makes for one incoming request with
the given action, as a function of the scan outcome: exactly one for
`findVideos` (then-or-catch), none otherwise. -/
def listenerResponses (action : String) (outcome : Except String (List Candidate)) :
    List FindVideosResponse :=
  if action = "findVideos" then [handleFindVideos outcome] else []

/-! ## Concrete fixtures used by the scenario theorems and witnesses -/

/-- The spec's YouTube scenario document: hostname `www.youtube.com`, one
script tag holding the `ytInitialPlayerResponse` assignment (no trailing
semicolon, exactly as the scenario writes it), no video elements. -/
def docYt : Doc :=
  { hostname := "www.youtube.com",
    scripts := ["ytInitialPlayerResponse = \x7b\"streamingData\":\x7b\"hlsManifestUrl\":\"https://example.com/hls/master.m3u8\"\x7d\x7d"] }

/-- The single candidate the scan of `docYt` produces (via the generic
script-text regex scan; the YouTube-specific regex needs a trailing `;` and
does not match the scenario's script). -/
def candYt : Candidate :=
  { url := some "https://example.com/hls/master.m3u8",
    type := some "streaming",
    platform := some "youtube",
    format := some "HLS",
    size := some "Unknown",
    title := some "youtube Stream",
    isStreaming := some true }

/-- The spec's generic-hostname scenario document: one
`<video src="https://cdn.example.com/clip.mp4">`. -/
def docClip : Doc :=
  { hostname := "example.org",
    videos := [{ src := some "https://cdn.example.com/clip.mp4" }] }

/-- The single candidate the scan of `docClip` produces. -/
def candClip : Candidate :=
  { src := some "https://cdn.example.com/clip.mp4",
    type := some "direct",
    title := some "clip",
    duration := some 0,
    currentTime := some 0 }

/-- A TikTok-hostname document whose only video element has a `blob:` src. -/
def docBlob : Doc :=
  { hostname := "www.tiktok.com",
    videos := [{ src := some "blob:https://www.tiktok.com/1234-5678" }] }

/-- The non-downloadable candidate the scan of `docBlob` produces. -/
def candBlob : Candidate :=
  { url := some "blob:https://www.tiktok.com/1234-5678",
    title := some "TikTok Video",
    type := some "tiktok_blob",
    format := some "blob",
    size := some "Unknown",
    downloadable := some false,
    reason := some blobReason,
    alternative := some blobAlternative }

/-- Two url-only candidates with distinct urls, as two streaming strategies
would produce for two different streams. -/
def candUrlA : Candidate :=
  { url := some "https://a.example/1.m3u8" }

/-- Second distinct-url candidate of the dedup failing input. -/
def candUrlB : Candidate :=
  { url := some "https://b.example/2.m3u8" }

/-! ## Supporting lemmas -/

theorem mem_of_mem_removeDuplicatesAux {c : Candidate} :
    ∀ (l : List Candidate) (seen : List (Option String)),
      c ∈ removeDuplicatesAux seen l → c ∈ l := by
  intro l
  induction l with
  | nil => intro seen h; exact absurd h (List.not_mem_nil c)
  | cons v t ih =>
    intro seen h
    rw [removeDuplicatesAux] at h
    split at h
    · exact List.mem_cons_of_mem _ (ih seen h)
    · rcases List.mem_cons.mp h with h1 | h2
      · exact h1 ▸ List.mem_cons_self _ _
      · exact List.mem_cons_of_mem _ (ih _ h2)

theorem mem_findVideos_strategies {doc : Doc} {su : List String} {c : Candidate}
    (h : c ∈ findVideos doc su) :
    c ∈ findDirectVideoElements doc ++ findSourceElements doc ++
        findPlatformSpecificVideos doc (detectPlatform doc.hostname) ++
        findStreamingVideos doc su (detectPlatform doc.hostname) := by
  simp only [findVideos, removeDuplicates] at h
  exact mem_of_mem_removeDuplicatesAux _ _ (List.mem_filter.mp h).1

theorem shape_direct {doc : Doc} {c : Candidate} (h : c ∈ findDirectVideoElements doc) :
    (∃ s, c.src = some s) ∧ c.url = none ∧ c.format = none ∧ c.downloadable = none := by
  simp only [findDirectVideoElements, List.mem_filterMap] at h
  obtain ⟨v, -, hv⟩ := h
  split at hv
  · cases hv
    exact ⟨⟨_, rfl⟩, rfl, rfl, rfl⟩
  · exact (Option.noConfusion hv)

theorem shape_source {doc : Doc} {c : Candidate} (h : c ∈ findSourceElements doc) :
    (∃ s, c.src = some s) ∧ c.url = none ∧ c.format = none ∧ c.downloadable = none := by
  simp only [findSourceElements, List.mem_flatMap, List.mem_filterMap] at h
  obtain ⟨v, -, s, -, hv⟩ := h
  split at hv
  · cases hv
    exact ⟨⟨_, rfl⟩, rfl, rfl, rfl⟩
  · exact (Option.noConfusion hv)

theorem shape_harvest {doc : Doc} {sels : List String} {mk : MediaElem → String}
    {ty : String} {c : Candidate} (h : c ∈ platformHarvest doc sels mk ty) :
    c.src = none ∧ (∃ u, c.url = some u) ∧ c.downloadable = none := by
  simp only [platformHarvest, List.mem_flatMap, List.mem_filterMap] at h
  obtain ⟨sel, -, e, -, he⟩ := h
  split at he
  · cases he
    exact ⟨rfl, ⟨_, rfl⟩, rfl⟩
  · exact (Option.noConfusion he)

theorem shape_blob {doc : Doc} {pf : String} {c : Candidate}
    (h : c ∈ findBlobVideos doc pf) :
    c.src = none ∧ (∃ u, c.url = some u) ∧
      c.downloadable = some false ∧ c.reason = some blobReason := by
  simp only [findBlobVideos, List.mem_filterMap] at h
  obtain ⟨v, -, hv⟩ := h
  split at hv
  · cases hv
    exact ⟨rfl, ⟨_, rfl⟩, rfl, rfl⟩
  · exact (Option.noConfusion hv)

theorem shape_streamMap {pf : String} {l : List String} {c : Candidate}
    (h : c ∈ l.map (streamCandidate pf)) :
    c.src = none ∧ (∃ u, c.url = some u) ∧ c.downloadable = none := by
  simp only [List.mem_map] at h
  obtain ⟨u, -, rfl⟩ := h
  exact ⟨rfl, ⟨_, rfl⟩, rfl⟩

theorem shape_extractYt {doc : Doc} {sd : Json} {c : Candidate}
    (h : c ∈ extractYouTubeStreamingData doc sd) :
    c.src = none ∧ (∃ u, c.url = some u) ∧ c.downloadable = none := by
  simp only [extractYouTubeStreamingData, List.mem_append] at h
  rcases h with h | h <;>
    (split at h
     · split at h
       · rw [List.mem_singleton] at h
         subst h
         exact ⟨rfl, ⟨_, rfl⟩, rfl⟩
       · exact absurd h (List.not_mem_nil c)
     · exact absurd h (List.not_mem_nil c))

theorem shape_ytStreaming {doc : Doc} {c : Candidate}
    (h : c ∈ findYouTubeStreamingUrls doc) :
    c.src = none ∧ (∃ u, c.url = some u) ∧ c.downloadable = none := by
  simp only [findYouTubeStreamingUrls, List.mem_flatMap] at h
  obtain ⟨text, -, ht⟩ := h
  split at ht
  · split at ht
    · split at ht
      · split at ht
        · split at ht
          · exact shape_extractYt ht
          · exact absurd ht (List.not_mem_nil c)
        · exact absurd ht (List.not_mem_nil c)
      · exact absurd ht (List.not_mem_nil c)
    · exact absurd ht (List.not_mem_nil c)
  · exact absurd ht (List.not_mem_nil c)

theorem shape_fbStreaming {doc : Doc} {c : Candidate}
    (h : c ∈ findFacebookStreamingUrls doc) :
    c.src = none ∧ (∃ u, c.url = some u) ∧ c.downloadable = none := by
  simp only [findFacebookStreamingUrls, List.mem_flatMap] at h
  obtain ⟨text, -, ht⟩ := h
  split at ht
  · simp only [List.mem_map] at ht
    obtain ⟨u, -, rfl⟩ := ht
    exact ⟨rfl, ⟨_, rfl⟩, rfl⟩
  · exact absurd ht (List.not_mem_nil c)

theorem shape_ttStreaming {doc : Doc} {c : Candidate}
    (h : c ∈ findTikTokStreamingUrls doc) :
    c.src = none ∧ (∃ u, c.url = some u) ∧ c.downloadable = none := by
  simp only [findTikTokStreamingUrls, List.mem_flatMap] at h
  obtain ⟨text, -, ht⟩ := h
  split at ht
  · simp only [List.mem_map] at ht
    obtain ⟨u, -, rfl⟩ := ht
    exact ⟨rfl, ⟨_, rfl⟩, rfl⟩
  · exact absurd ht (List.not_mem_nil c)

theorem shape_streaming {doc : Doc} {su : List String} {pf : String} {c : Candidate}
    (h : c ∈ findStreamingVideos doc su pf) :
    c.src = none ∧ (∃ u, c.url = some u) ∧ c.downloadable = none := by
  simp only [findStreamingVideos, scanPageForStreamingUrls, List.mem_append] at h
  rcases h with h | h | h
  · exact shape_streamMap h
  · simp only [List.mem_flatMap] at h
    obtain ⟨text, -, ht⟩ := h
    split at ht
    · exact shape_streamMap ht
    · exact absurd ht (List.not_mem_nil c)
  · split at h
    · exact shape_ytStreaming h
    · split at h
      · exact shape_fbStreaming h
      · split at h
        · exact shape_ttStreaming h
        · exact absurd h (List.not_mem_nil c)

theorem shape_platformSpecific {doc : Doc} {pf : String} {c : Candidate}
    (h : c ∈ findPlatformSpecificVideos doc pf) :
    c.src = none ∧ (∃ u, c.url = some u) ∧
      (c.downloadable = none ∨ (c.downloadable = some false ∧ c.reason = some blobReason)) := by
  simp only [findPlatformSpecificVideos] at h
  split_ifs at h <;>
    first
      | exact absurd h (List.not_mem_nil c)
      | (first
          | rw [findTikTokVideos] at h
          | rw [findFacebookVideos] at h
          | rw [findYouTubeVideos] at h
          | rw [findInstagramVideos] at h
          | rw [findTwitterVideos] at h
          | rw [findTwitchVideos] at h)
        rcases List.mem_append.mp h with h2 | h2
        · obtain ⟨h3, h4, h5⟩ := shape_harvest h2
          exact ⟨h3, h4, Or.inl h5⟩
        · obtain ⟨h3, h4, h5, h6⟩ := shape_blob h2
          exact ⟨h3, h4, Or.inr ⟨h5, h6⟩⟩

theorem removeDuplicatesAux_idem (l : List Candidate) :
    ∀ seen, removeDuplicatesAux seen (removeDuplicatesAux seen l) = removeDuplicatesAux seen l := by
  induction l with
  | nil => intro seen; rfl
  | cons v t ih =>
    intro seen
    by_cases h : v.src ∈ seen
    · simp [removeDuplicatesAux, h, ih]
    · simp [removeDuplicatesAux, h, ih]

theorem bor_elim {a b : Bool} (h : (a || b) = true) : a = true ∨ b = true := by
  cases a <;> cases b <;> simp_all

theorem bor_left {a b : Bool} (h : a = true) : (a || b) = true := by
  cases b <;> simp_all

/-! ## Claim theorems -/

/-- C1: the claim says dedup keeps exactly one candidate per distinct `url`;
but the `removeDuplicates` the orchestrator runs (the later of the two
definitions) keys on `video.src`, so two url-only candidates with distinct
urls collide on the absent `src` and the second is dropped — while the
earlier, shadowed definition (keyed `url || src`) behaves as claimed.  This
theorem evaluates both at that failing input. -/
theorem claim1_dedup_drops_distinct_urls :
    candUrlA.url ≠ candUrlB.url ∧ candUrlA.src = none ∧ candUrlB.src = none ∧
    removeDuplicates [candUrlA, candUrlB] = [candUrlA] ∧
    removeDuplicatesShadowed [candUrlA, candUrlB] = [candUrlA, candUrlB] := by
  decide

/-- C2: on hostname `www.youtube.com` with the scenario's
`ytInitialPlayerResponse` script, the scan result contains (in fact is
exactly) a candidate with `platform = "youtube"`, `format = "HLS"` and
`url = "https://example.com/hls/master.m3u8"`. -/
theorem claim2_youtube_scenario :
    findVideos docYt [] = [candYt] ∧
    candYt.platform = some "youtube" ∧ candYt.format = some "HLS" ∧
    candYt.url = some "https://example.com/hls/master.m3u8" := by
  refine ⟨by decide, rfl, rfl, rfl⟩

/-- C3 counterexample: the generic `<video src="https://cdn.example.com/clip.mp4">`
scan yields exactly one candidate, but that candidate carries no `format`
field at all (the direct-element pass never sets one), so no candidate with
`format = "MP4"` exists, contrary to the claim. -/
theorem claim3_counterexample :
    findVideos docClip [] = [candClip] ∧ candClip.format = none ∧
    ∀ c ∈ findVideos docClip [], c.format ≠ some "MP4" := by
  decide

/-- C3 amended: the scan yields exactly one candidate, storing the URL in
`src` with `format` and `downloadable` unset; and the final filter keeps a
non-streaming candidate only if its locator (`url || src`) is at least 20
characters (a 15-character URL is dropped, a 25-character URL survives). -/
theorem claim3_amended :
    (∀ c : Candidate, c.isStreaming.getD false = false → isValidVideo c = true →
      ∃ u, jsOrStr c.url c.src = some u ∧ 20 ≤ u.length) ∧
    findVideos docClip [] = [candClip] ∧
    candClip.src = some "https://cdn.example.com/clip.mp4" ∧
    candClip.format = none ∧ candClip.downloadable = none ∧
    isValidVideo { src := some "http://v.mp4/ab", type := some "direct" } = false ∧
    isValidVideo { src := some "http://cdn.ex/video01.mp4", type := some "direct" } = true ∧
    "http://v.mp4/ab".length = 15 ∧ "http://cdn.ex/video01.mp4".length = 25 := by
  refine ⟨?_, by decide, rfl, rfl, rfl, by decide, by decide, by decide, by decide⟩
  intro c hs hv
  rw [isValidVideo] at hv
  rw [hs] at hv
  simp only [Bool.false_eq_true, if_false] at hv
  split_ifs at hv with h1 h2
  cases hvu : jsOrStr c.url c.src with
  | none => rw [hvu] at h1; exact absurd (by decide) h1
  | some u =>
    rw [hvu] at h2
    refine ⟨u, rfl, ?_⟩
    simp only [Option.getD_some] at h2
    omega

/-- C3 witness: the amended filter bound applied to the concrete direct
candidate of the scenario. -/
theorem claim3_witness :
    candClip.isStreaming.getD false = false ∧ isValidVideo candClip = true ∧
    ∃ u, jsOrStr candClip.url candClip.src = some u ∧ 20 ≤ u.length :=
  ⟨by decide, by decide, claim3_amended.1 candClip (by decide) (by decide)⟩

/-- C4 counterexample: `https://example.com/manifest/v` contains neither
`.m3u8` nor `.mpd` nor any `/hls/`, `/dash/` or segment marker, yet
`isStreamingUrl` returns `true` (the `/manifest/` pattern matches), so the
claim's false-direction fails as stated. -/
theorem claim4_counterexample :
    isStreamingUrl (some "https://example.com/manifest/v") = true ∧
    jsIncludes "https://example.com/manifest/v" ".m3u8" = false ∧
    jsIncludes "https://example.com/manifest/v" ".mpd" = false ∧
    jsIncludes (lowerStr "https://example.com/manifest/v") "/hls/" = false ∧
    jsIncludes (lowerStr "https://example.com/manifest/v") "/dash/" = false ∧
    endsWithStr (lowerStr "https://example.com/manifest/v") ".ts" = false ∧
    segDigitAt "https://example.com/manifest/v".data = false := by
  decide

/-- C4 amended: URLs containing `.m3u8` or `.mpd` are streaming; URLs
containing none of the full marker set (`m3u8` and `mpd` substrings, and the
case-insensitive patterns `/hls/`, `/dash/`, `/stream/`, `/manifest/`,
`playlist.m3u8`, `master.m3u8`, `index.m3u8`, trailing `.ts`,
`segment-<digit>`) are not; absent/non-string and empty input yields false. -/
theorem claim4_amended :
    (∀ u : String, (jsIncludes u ".m3u8" || jsIncludes u ".mpd") = true →
      isStreamingUrl (some u) = true) ∧
    (∀ u : String,
      jsIncludes u ".m3u8" = false → jsIncludes u "m3u8" = false →
      jsIncludes u ".mpd" = false → jsIncludes u "mpd" = false →
      jsIncludes (lowerStr u) "/hls/" = false →
      jsIncludes (lowerStr u) "/dash/" = false →
      jsIncludes (lowerStr u) "/stream/" = false →
      jsIncludes (lowerStr u) "/manifest/" = false →
      jsIncludes (lowerStr u) "playlist.m3u8" = false →
      jsIncludes (lowerStr u) "master.m3u8" = false →
      jsIncludes (lowerStr u) "index.m3u8" = false →
      endsWithStr (lowerStr u) ".ts" = false →
      segDigitAt u.data = false →
      isStreamingUrl (some u) = false) ∧
    isStreamingUrl none = false ∧ isStreamingUrl (some "") = false := by
  refine ⟨?_, ?_, rfl, by decide⟩
  · intro u h
    have hne : u ≠ "" := by
      rintro rfl
      exact absurd h (by decide)
    rw [isStreamingUrl]
    rw [if_neg hne]
    by_cases h2 : (jsIncludes u ".m3u8" || jsIncludes u "m3u8") = true
    · rw [if_pos h2]
    · rw [if_neg h2]
      have h3 : jsIncludes u ".mpd" = true := by
        rcases bor_elim h with h1 | h1
        · exact absurd (bor_left h1) h2
        · exact h1
      rw [if_pos (bor_left h3)]
  · intro u h1 h2 h3 h4 h5 h6 h7 h8 h9 h10 h11 h12 h13
    by_cases hu : u = ""
    · subst hu; decide
    · rw [isStreamingUrl]
      rw [if_neg hu]
      simp only [h1, h2, h3, h4, h5, h6, h7, h8, h9, h10, h11, h12, h13]
      simp

/-- C4 witness: the amended directions applied at concrete URLs. -/
theorem claim4_witness :
    (jsIncludes "https://x.io/a.m3u8" ".m3u8" || jsIncludes "https://x.io/a.m3u8" ".mpd") = true ∧
    isStreamingUrl (some "https://x.io/a.m3u8") = true ∧
    isStreamingUrl (some "https://example.com/page.html") = false :=
  ⟨by decide, claim4_amended.1 _ (by decide),
   claim4_amended.2.1 _ (by decide) (by decide) (by decide) (by decide) (by decide)
     (by decide) (by decide) (by decide) (by decide) (by decide) (by decide)
     (by decide) (by decide)⟩

/-- C5: `isValidVideoUrl` rejects every URL whose scheme parses to `blob` or
`data` (whatever else the URL contains), and accepts only URLs that parse
with an `http` or `https` scheme. -/
theorem claim5_scheme_gate :
    (∀ u p, parseUrl u = some p → p.scheme = "blob" ∨ p.scheme = "data" →
      isValidVideoUrl u = false) ∧
    (∀ u, isValidVideoUrl u = true →
      ∃ p, parseUrl u = some p ∧ (p.scheme = "http" ∨ p.scheme = "https")) := by
  constructor
  · intro u p hp hs
    simp only [isValidVideoUrl, hp]
    have hcond : (!(decide (p.scheme = "http") || decide (p.scheme = "https"))) = true := by
      rcases hs with h | h <;> rw [h] <;> decide
    rw [if_pos hcond]
  · intro u hv
    cases hp : parseUrl u with
    | none => simp only [isValidVideoUrl, hp] at hv; exact absurd hv (by simp)
    | some p =>
      simp only [isValidVideoUrl, hp] at hv
      refine ⟨p, rfl, ?_⟩
      by_cases hc : (!(decide (p.scheme = "http") || decide (p.scheme = "https"))) = true
      · rw [if_pos hc] at hv; exact absurd hv (by simp)
      · have h2 : (decide (p.scheme = "http") || decide (p.scheme = "https")) = true := by
          cases hb : (decide (p.scheme = "http") || decide (p.scheme = "https")) with
          | false => exact absurd (by rw [hb]; rfl) hc
          | true => rfl
        rcases bor_elim h2 with h | h
        · exact Or.inl (of_decide_eq_true h)
        · exact Or.inr (of_decide_eq_true h)

/-- C5 witness: a blob URL carrying a video extension is rejected; an
http(s) video URL is accepted and indeed parses with an https scheme. -/
theorem claim5_witness :
    isValidVideoUrl "blob:https://a/.mp4" = false ∧
    isValidVideoUrl "https://a.co/v.mp4" = true ∧
    ∃ p, parseUrl "https://a.co/v.mp4" = some p ∧ (p.scheme = "http" ∨ p.scheme = "https") :=
  ⟨claim5_scheme_gate.1 _ ⟨"blob", "", "https://a/.mp4"⟩ (by decide) (Or.inl rfl),
   by decide, claim5_scheme_gate.2 _ (by decide)⟩

/-- C6 counterexample: a non-empty URL matching no marker yields `"Video"`,
not `"Unknown"`; and a blob-scheme URL containing an extension marker yields
that extension's format, not `"Blob"` — both contrary to the claim. -/
theorem claim6_counterexample :
    getVideoFormat "https://example.com/file" = "Video" ∧
    ("Video" : String) ≠ "Unknown" ∧
    startsWithStr (lowerStr "blob:https://a/x.mp4") "blob:" = true ∧
    getVideoFormat "blob:https://a/x.mp4" = "MP4" ∧
    ("MP4" : String) ≠ "Blob" := by
  decide

/-- C6 amended: `getVideoFormat` is a first-match-wins scan over the ordered
marker list (`.mp4` beats the later `.webm` marker even when both occur);
it returns `"Unknown"` only for an empty/absent url, `"Video"` for a
non-empty url matching no marker, and `"Blob"` for blob-scheme URLs that
match none of the earlier extension markers. -/
theorem claim6_amended :
    (∀ u : String, u ≠ "" →
      jsIncludes (lowerStr u) ".mp4" = false → jsIncludes (lowerStr u) ".webm" = false →
      jsIncludes (lowerStr u) ".ogg" = false → jsIncludes (lowerStr u) ".avi" = false →
      jsIncludes (lowerStr u) ".mov" = false → jsIncludes (lowerStr u) ".wmv" = false →
      jsIncludes (lowerStr u) ".flv" = false → jsIncludes (lowerStr u) ".mkv" = false →
      jsIncludes (lowerStr u) ".m3u8" = false → jsIncludes (lowerStr u) ".mpd" = false →
      jsIncludes (lowerStr u) ".ts" = false →
      startsWithStr (lowerStr u) "blob:" = false →
      getVideoFormat u = "Video") ∧
    getVideoFormat "" = "Unknown" ∧
    (∀ u : String,
      jsIncludes (lowerStr u) ".mp4" = false → jsIncludes (lowerStr u) ".webm" = false →
      jsIncludes (lowerStr u) ".ogg" = false → jsIncludes (lowerStr u) ".avi" = false →
      jsIncludes (lowerStr u) ".mov" = false → jsIncludes (lowerStr u) ".wmv" = false →
      jsIncludes (lowerStr u) ".flv" = false → jsIncludes (lowerStr u) ".mkv" = false →
      jsIncludes (lowerStr u) ".m3u8" = false → jsIncludes (lowerStr u) ".mpd" = false →
      jsIncludes (lowerStr u) ".ts" = false →
      startsWithStr (lowerStr u) "blob:" = true →
      getVideoFormat u = "Blob") ∧
    getVideoFormat "https://x/a.webm.mp4" = "MP4" := by
  refine ⟨?_, rfl, ?_, by decide⟩
  · intro u hu h1 h2 h3 h4 h5 h6 h7 h8 h9 h10 h11 h12
    rw [getVideoFormat]
    rw [if_neg hu]
    simp only [h1, h2, h3, h4, h5, h6, h7, h8, h9, h10, h11, h12]
    simp
  · intro u h1 h2 h3 h4 h5 h6 h7 h8 h9 h10 h11 h12
    have hu : u ≠ "" := by
      rintro rfl
      exact absurd h12 (by decide)
    rw [getVideoFormat]
    rw [if_neg hu]
    simp only [h1, h2, h3, h4, h5, h6, h7, h8, h9, h10, h11, h12]
    simp

/-- C6 witness: the amended no-match and blob cases applied at concrete URLs. -/
theorem claim6_witness :
    getVideoFormat "https://example.com/file" = "Video" ∧
    getVideoFormat "blob:https://a/b" = "Blob" :=
  ⟨claim6_amended.1 _ (by decide) (by decide) (by decide) (by decide) (by decide)
     (by decide) (by decide) (by decide) (by decide) (by decide) (by decide)
     (by decide) (by decide),
   claim6_amended.2.2.1 _ (by decide) (by decide) (by decide) (by decide) (by decide)
     (by decide) (by decide) (by decide) (by decide) (by decide) (by decide)
     (by decide)⟩

/-- C7: in the final candidate list of every scan, any candidate with
`downloadable = false` carries a non-empty `reason` (only the blob strategy
sets `downloadable`, and it always attaches the fixed non-empty reason). -/
theorem claim7_downloadable_false_has_reason :
    ∀ (doc : Doc) (su : List String) (c : Candidate),
      c ∈ findVideos doc su → c.downloadable = some false →
      ∃ r, c.reason = some r ∧ r ≠ "" := by
  intro doc su c h hd
  have h2 := mem_findVideos_strategies h
  simp only [List.append_assoc, List.mem_append] at h2
  rcases h2 with h3 | h3 | h3 | h3
  · obtain ⟨-, -, -, hdl⟩ := shape_direct h3
    rw [hd] at hdl; exact Option.noConfusion hdl
  · obtain ⟨-, -, -, hdl⟩ := shape_source h3
    rw [hd] at hdl; exact Option.noConfusion hdl
  · obtain ⟨-, -, hdl⟩ := shape_platformSpecific h3
    rcases hdl with hdl | ⟨-, hr⟩
    · rw [hd] at hdl; exact Option.noConfusion hdl
    · exact ⟨blobReason, hr, by decide⟩
  · obtain ⟨-, -, hdl⟩ := shape_streaming h3
    rw [hd] at hdl; exact Option.noConfusion hdl

/-- C7 witness: the invariant applied to the blob candidate of a concrete
TikTok scan. -/
theorem claim7_witness :
    candBlob ∈ findVideos docBlob [] ∧ candBlob.downloadable = some false ∧
    ∃ r, candBlob.reason = some r ∧ r ≠ "" :=
  ⟨by decide, by decide,
   claim7_downloadable_false_has_reason docBlob [] candBlob (by decide) (by decide)⟩

/-- C8: the merge-and-dedup step the orchestrator runs is idempotent. -/
theorem claim8_dedup_idempotent :
    ∀ l : List Candidate, removeDuplicates (removeDuplicates l) = removeDuplicates l := by
  intro l
  exact removeDuplicatesAux_idem l []

/-- C9: an exception anywhere inside the `findVideos` pipeline reaches its
catch, which yields `[]` (never a partial list); and the message listener
answers every `findVideos` request with exactly one response — `{videos}` on
success, `{videos: [], error}` on failure. -/
theorem claim9_error_handling :
    (∀ e, findVideosCatch (Except.error e) = []) ∧
    (∀ outcome, listenerResponses "findVideos" outcome = [handleFindVideos outcome]) ∧
    (∀ outcome, (listenerResponses "findVideos" outcome).length = 1) ∧
    (∀ e, handleFindVideos (Except.error e) = { videos := [], error := some e }) :=
  ⟨fun _ => rfl, fun _ => rfl, fun _ => rfl, fun _ => rfl⟩

/-- C10: generic DOM-harvest candidates (direct and nested-source passes)
carry their locator in `src` with no `url` and no `format` field, while
platform-specific, streaming and blob candidates carry their locator in
`url` with no `src` field. -/
theorem claim10_field_split :
    ∀ (doc : Doc) (pf : String) (su : List String) (c : Candidate),
      (c ∈ findDirectVideoElements doc ++ findSourceElements doc →
        (∃ s, c.src = some s) ∧ c.url = none ∧ c.format = none) ∧
      (c ∈ findPlatformSpecificVideos doc pf ++ findStreamingVideos doc su pf →
        (∃ u, c.url = some u) ∧ c.src = none) := by
  intro doc pf su c
  constructor
  · intro h
    rcases List.mem_append.mp h with h | h
    · obtain ⟨hs, hu, hf, -⟩ := shape_direct h
      exact ⟨hs, hu, hf⟩
    · obtain ⟨hs, hu, hf, -⟩ := shape_source h
      exact ⟨hs, hu, hf⟩
  · intro h
    rcases List.mem_append.mp h with h | h
    · obtain ⟨hs, hu, -⟩ := shape_platformSpecific h
      exact ⟨hu, hs⟩
    · obtain ⟨hs, hu, -⟩ := shape_streaming h
      exact ⟨hu, hs⟩

/-- C10 witness: the field split applied to a concrete direct candidate and
a concrete observed-streaming candidate. -/
theorem claim10_witness :
    (candClip ∈ findDirectVideoElements docClip ++ findSourceElements docClip ∧
      (∃ s, candClip.src = some s) ∧ candClip.url = none ∧ candClip.format = none) ∧
    (streamCandidate "generic" "https://s.example/live/index.m3u8" ∈
        findPlatformSpecificVideos docClip "generic" ++
        findStreamingVideos docClip ["https://s.example/live/index.m3u8"] "generic" ∧
      (∃ u, (streamCandidate "generic" "https://s.example/live/index.m3u8").url = some u) ∧
      (streamCandidate "generic" "https://s.example/live/index.m3u8").src = none) :=
  ⟨⟨by decide, (claim10_field_split docClip "generic" [] candClip).1 (by decide)⟩,
   ⟨by decide,
    (claim10_field_split docClip "generic" ["https://s.example/live/index.m3u8"] _).2
      (by decide)⟩⟩

end VDH
